import Mathlib

/-
Verification development for the multiplication-drill game
(`game-multiplications`): a shallow embedding of the adaptive practice &
scoring engine (question selection, session bookkeeping, reward arithmetic,
progress aggregation) together with theorems settling the specification
claims about it.

Modelling conventions:
* Python `float` arithmetic is embedded as exact rational arithmetic (`ℚ`).
* Python `int` is `ℤ` (or `ℕ` where the source value is provably
  non-negative, e.g. table numbers and counters that only get incremented).
* Python's `int(x)` on a non-negative float truncates, embedded as `⌊x⌋`
  (the general truncation-towards-zero is `pyTrunc`).
* Python dicts whose insertion order and key set matter are embedded as
  association lists; `defaultdict` access is embedded by `statGet`
  (read with default) and `statUpdate` (mutate, appending a fresh entry
  when the key is absent, exactly as `defaultdict.__getitem__` does).
* `datetime` values are embedded as an abstract instant (`DateTime`);
  the stdlib contract `datetime.fromisoformat (d.isoformat()) = d` is
  embedded by keeping ISO strings as a tagged constructor (`JValue.jiso`)
  rather than re-implementing calendar string formatting.
-/

namespace MultGame

/-! ### rewards.py -/

/-- `rewards.INCORRECT_PENALTY`. -/
def INCORRECT_PENALTY : ℤ := 2

/-- `rewards.per_question_reward`: `2 + table // 4` (tables are 1..10, so
Python floor division is `Nat` division). -/
def per_question_reward (table : ℕ) : ℕ := 2 + table / 4

/-- `rewards.incorrect_penalty`. -/
def incorrect_penalty : ℤ := INCORRECT_PENALTY

/-- Python `int(x)`: truncation towards zero. -/
def pyTrunc (q : ℚ) : ℤ := if 0 ≤ q then ⌊q⌋ else ⌈q⌉

/-- Decimal digit value of a character, if any. -/
def digitVal (c : Char) : Option ℕ :=
  if c = '0' then some 0 else if c = '1' then some 1 else if c = '2' then some 2
  else if c = '3' then some 3 else if c = '4' then some 4 else if c = '5' then some 5
  else if c = '6' then some 6 else if c = '7' then some 7 else if c = '8' then some 8
  else if c = '9' then some 9 else none

/-- Accumulate a run of decimal digits; fails on any non-digit. -/
def parseDigits : List Char → ℕ → Option ℕ
  | [], acc => some acc
  | c :: rest, acc =>
      match digitVal c with
      | some d => parseDigits rest (acc * 10 + d)
      | none => none

/-- Python `int(text)` on a string: optional sign followed by decimal
digits, `ValueError` (`none`) otherwise. (Python additionally strips
whitespace and permits `_` separators; the session input buffers only ever
hold plain digit characters, so that is not modelled.) -/
def pyParseInt (s : String) : Option ℤ :=
  match s.data with
  | [] => none
  | '-' :: rest =>
      if rest = [] then none else (parseDigits rest 0).map fun n => -(n : ℤ)
  | '+' :: rest =>
      if rest = [] then none else (parseDigits rest 0).map fun n => (n : ℤ)
  | l => (parseDigits l 0).map fun n => (n : ℤ)

/-- `rewards.time_bonus_from_ratio`: clamp the fraction into `[0,1]`,
scale by 8 and round (`int(round (x))`; Python `round` is banker's

rounding, which agrees with `round : ℚ → ℤ` except exactly at halves —
no statement below evaluates it at a half). -/
def time_bonus_from_frac (q : ℚ) : ℤ := round ((max 0 (min 1 q)) * 8)

/-- `rewards.max_time_bonus`. -/
def max_time_bonus : ℤ := 8

/-- `rewards.speed_bonus`: the `_SPEED_BONUS` lookup with default 0. -/
def speed_bonus (label : String) : ℤ :=
  if label = "Slak" then 0
  else if label = "Schildpad" then 2
  else if label = "Haas" then 4
  else if label = "Cheeta" then 6
  else 0

/-- `rewards.estimate_max_reward`. -/
def estimate_max_reward (tables : List ℕ) (question_count : ℤ) (speed_label : String) : ℤ :=
  if tables = [] ∨ question_count ≤ 0 then 0
  else
    let average_reward : ℚ :=
      ((tables.map fun t => (per_question_reward t : ℚ)).sum) / tables.length
    let total : ℤ := round (average_reward * question_count)
    total + max 0 (max_time_bonus + speed_bonus speed_label)

/-! ### Questions (test_session.Question / practice_session.PracticeQuestion,
identical dataclasses) -/

/-- A multiplication question; `answer = left * right` is derived. -/
structure Question where
  left : ℕ
  right : ℕ
deriving DecidableEq, Repr

/-- `Question.answer`. -/
def Question.answer (q : Question) : ℕ := q.left * q.right

/-! ### Per-table running statistics

Both session scenes keep `table_stats : defaultdict(int → dict)` with the
fixed keys `"questions"`, `"correct"`, `"incorrect"`, `"total_time"`
(all float-valued); every producer in the repository creates exactly these
four keys, so the dict is embedded as a fixed four-field record. -/

structure TableStat where
  questions : ℚ
  correct : ℚ
  incorrect : ℚ
  total_time : ℚ
deriving DecidableEq, Repr

/-- The `defaultdict` initialiser: all four counters at `0.0`. -/
def TableStat.empty : TableStat := ⟨0, 0, 0, 0⟩

/-- Read `table_stats[k]` without mutating (the value a fresh entry would
hold is `TableStat.empty`, so reads through the default are unchanged by
`defaultdict`'s entry creation). -/
def statGet (m : List (ℕ × TableStat)) (k : ℕ) : TableStat :=
  ((m.find? fun p => p.1 = k).map fun p => p.2).getD TableStat.empty

/-- Mutate `table_stats[k]` in place, appending a fresh entry when the key
is absent (`defaultdict.__getitem__` followed by the mutation `f`). -/
def statUpdate (m : List (ℕ × TableStat)) (k : ℕ) (f : TableStat → TableStat) :
    List (ℕ × TableStat) :=
  match m with
  | [] => [(k, f TableStat.empty)]
  | (k₁, v) :: rest =>
      if k₁ = k then (k₁, f v) :: rest else (k₁, v) :: statUpdate rest k f

/-- The stat mutation both `_submit_answer` bodies perform: increment
`questions`, add the response time, and increment `correct` or
`incorrect`. -/
def statRecord (is_correct : Bool) (answer_time : ℚ) (st : TableStat) : TableStat :=
  { st with
    questions := st.questions + 1
    total_time := st.total_time + answer_time
    correct := if is_correct then st.correct + 1 else st.correct
    incorrect := if is_correct then st.incorrect else st.incorrect + 1 }

/-! ### Timestamps -/

/-- An instant as produced by `datetime.now()`; the embedding only needs
equality and ordering, modelled on a single tick counter. -/
structure DateTime where
  ticks : ℤ
deriving DecidableEq, Repr

/-- Python `max` on two timestamps. -/
def dtMax (a b : DateTime) : DateTime := if a.ticks ≤ b.ticks then b else a

/-! ### models.TestResult -/

structure TestResult where
  profile_id : String
  profile_name : String
  tables : List ℤ
  question_count : ℤ
  answered : ℤ
  correct : ℤ
  incorrect : ℤ
  time_limit_seconds : ℤ
  elapsed_seconds : ℚ
  timestamp : DateTime
  table_stats : List (ℤ × TableStat)
deriving DecidableEq, Repr

/-- `TestResult.accuracy`: `correct / answered` when `answered` is truthy,
else `0.0`. -/
def TestResult.accuracy (r : TestResult) : ℚ :=
  if r.answered ≠ 0 then (r.correct : ℚ) / (r.answered : ℚ) else 0

/-- `TestResult.remaining_seconds`: `max(time_limit_seconds - elapsed_seconds, 0.0)`. -/
def TestResult.remaining_seconds (r : TestResult) : ℚ :=
  max ((r.time_limit_seconds : ℚ) - r.elapsed_seconds) 0

/-! ### scenes/test_session.py — TestSessionScene

State fields that carry the session logic (fonts, effect particles and
other pure-rendering fields are omitted; they feed no claim and no logic). -/

structure TestState where
  tables : List ℕ               -- config.tables
  question_count : ℕ            -- config.question_count
  time_limit_seconds : ℕ        -- config.time_limit_seconds
  speed_label : String
  questions : List Question
  current_index : ℕ
  input_value : String
  correct : ℕ
  incorrect : ℕ
  history : List (Question × String × Bool)
  elapsed : ℚ
  feedback_message : String
  feedback_timer : ℚ
  finished : Bool
  question_start_time : ℚ
  table_stats : List (ℕ × TableStat)
  session_coins : ℤ
  coin_delta : ℤ
deriving DecidableEq, Repr

/-- `TestSessionScene.__init__` (logic fields; `questions` is the already
generated random question list). -/
def initTestState (tables : List ℕ) (question_count time_limit_seconds : ℕ)
    (speed_label : String) (questions : List Question) : TestState :=
  { tables := tables
    question_count := question_count
    time_limit_seconds := time_limit_seconds
    speed_label := speed_label
    questions := questions
    current_index := 0
    input_value := ""
    correct := 0
    incorrect := 0
    history := []
    elapsed := 0
    feedback_message := "Succes! Je kunt met ENTER antwoorden."
    feedback_timer := 3
    finished := false
    question_start_time := 0
    table_stats := []
    session_coins := 0
    coin_delta := 0 }

/-- `TestSessionScene._determine_table`: prefer the left operand when it is
a configured table, else the right, else the larger operand. -/
def determineTableTest (tables : List ℕ) (q : Question) : ℕ :=
  if q.left ∈ tables then q.left
  else if q.right ∈ tables then q.right
  else max q.left q.right

/-- `TestSessionScene._record_table_stat`. -/
def recordTableStat (s : TestState) (q : Question) (is_correct : Bool)
    (answer_time : ℚ) : List (ℕ × TableStat) :=
  statUpdate s.table_stats (determineTableTest s.tables q)
    (statRecord is_correct answer_time)

/-- `TestSessionScene._finish_session`'s `TestResult(...)` construction,
with `now` the value of `datetime.now()`. -/
def finishResult (s : TestState) (profile_id profile_name : String)
    (now : DateTime) : TestResult :=
  { profile_id := profile_id
    profile_name := profile_name
    tables := s.tables.map fun t => (t : ℤ)
    question_count := (s.question_count : ℤ)
    answered := (s.history.length : ℤ)
    correct := (s.correct : ℤ)
    incorrect := (s.incorrect : ℤ)
    time_limit_seconds := (s.time_limit_seconds : ℤ)
    elapsed_seconds := min s.elapsed (s.time_limit_seconds : ℚ)
    timestamp := now
    table_stats := s.table_stats.map fun p => ((p.1 : ℤ), p.2) }

/-- `TestSessionScene._calculate_reward`: per-question payout accumulated
over the history, clamped at 0 once after the loop, plus
`max(0, int(ratio*8) + speed_bonus)` — note the *truncating* `int(...)`,
not `rewards.time_bonus_from_ratio`'s rounding. -/
def calculateReward (s : TestState) (result : TestResult) : ℤ :=
  let total : ℤ := s.history.foldl
    (fun acc h =>
      let per : ℤ := (per_question_reward (determineTableTest s.tables h.1) : ℤ)
      if h.2.2 then acc + per else acc - 2)
    0
  let total := max 0 total
  let frac : ℚ :=
    if result.time_limit_seconds ≠ 0 then
      result.remaining_seconds / (result.time_limit_seconds : ℚ)
    else 0
  let time_bonus : ℤ := pyTrunc (frac * 8)
  let speed : ℤ := speed_bonus s.speed_label
  total + max 0 (time_bonus + speed)

/-- `TestSessionScene._finish_session`'s effect on the scene state:
set `finished` and store the computed `coin_delta` (the `TestResult`
hand-off to the score store and the scene change are external I/O). -/
def testFinish (s : TestState) (profile_id profile_name : String)
    (now : DateTime) : TestState :=
  if s.finished then s
  else
    { s with
      finished := true
      coin_delta := calculateReward { s with finished := true }
        (finishResult { s with finished := true } profile_id profile_name now) }

/-- The three positive feedback strings `random.choice` draws from on a
correct answer. -/
def positiveTestFeedback : List String := ["Yes!", "Top!", "Lekker bezig!"]

/-- `TestSessionScene._submit_answer`.  `msgIdx` resolves the
`random.choice` over the positive feedback strings; `now` is consumed only
when the submission finishes the session. -/
def testSubmit (s : TestState) (msgIdx : ℕ) (profile_id profile_name : String)
    (now : DateTime) : TestState :=
  if s.questions.length ≤ s.current_index then s
  else if s.input_value = "" then
    { s with feedback_message := "Tik eerst een antwoord in.", feedback_timer := 3/2 }
  else
    match pyParseInt s.input_value with
    | none =>
        { s with
          feedback_message := "Gebruik alleen cijfers."
          feedback_timer := 3/2
          input_value := "" }
    | some guess =>
        let q := s.questions.getD s.current_index ⟨0, 0⟩
        let is_correct : Bool := guess = (q.answer : ℤ)
        let answer_time : ℚ := max (s.elapsed - s.question_start_time) 0
        let s := { s with history := s.history ++ [(q, s.input_value, is_correct)] }
        let s := { s with table_stats := recordTableStat s q is_correct answer_time }
        let per : ℤ := (per_question_reward (determineTableTest s.tables q) : ℤ)
        let delta : ℤ := if is_correct then per else -(max 2 (per / 2))
        let s :=
          if delta ≠ 0 then { s with session_coins := max 0 (s.session_coins + delta) }
          else s
        let s :=
          if is_correct then
            { s with
              correct := s.correct + 1
              feedback_message := positiveTestFeedback.getD msgIdx "Yes!"
              feedback_timer := 1 }
          else
            { s with
              incorrect := s.incorrect + 1
              feedback_message :=
                "Oei! " ++ toString q.left ++ " x " ++ toString q.right ++
                  " = " ++ toString q.answer
              feedback_timer := 5/2 }
        let s :=
          { s with
            input_value := ""
            current_index := s.current_index + 1
            question_start_time := s.elapsed }
        if s.questions.length ≤ s.current_index then
          testFinish s profile_id profile_name now
        else s

/-- `TestSessionScene.update`: advance the clock, finish on timeout, then
decay the feedback timer. -/
def testUpdate (s : TestState) (delta_time : ℚ) (profile_id profile_name : String)
    (now : DateTime) : TestState :=
  if s.finished then s
  else
    let s := { s with elapsed := s.elapsed + delta_time }
    let s :=
      if (s.time_limit_seconds : ℚ) - s.elapsed ≤ 0 then
        testFinish s profile_id profile_name now
      else s
    if 0 < s.feedback_timer then
      let ft := max (s.feedback_timer - delta_time) 0
      { s with
        feedback_timer := ft
        feedback_message := if ft = 0 then "" else s.feedback_message }
    else s

/-- `TestSessionScene.handle_events`, digit key: append the character when
it is a digit and the buffer holds fewer than 4 characters (no-op once the
session is finished, as `handle_events` returns early). -/
def testTypeDigit (s : TestState) (c : Char) : TestState :=
  if s.finished then s
  else if c.isDigit ∧ s.input_value.length < 4 then
    { s with input_value := s.input_value.push c }
  else s

/-- `TestSessionScene.handle_events`, backspace/delete: drop the last
character of the input buffer. -/
def testBackspace (s : TestState) : TestState :=
  if s.finished then s
  else { s with input_value := s.input_value.dropRight 1 }

/-- The test-session states reachable by the frame loop: the freshly
constructed scene, followed by any interleaving of keystrokes, answer
submissions and clock ticks. -/
inductive TestReach : TestState → Prop
  | init (tables : List ℕ) (question_count time_limit_seconds : ℕ)
      (speed_label : String) (questions : List Question) :
      TestReach (initTestState tables question_count time_limit_seconds
        speed_label questions)
  | typeDigit {s : TestState} (c : Char) :
      TestReach s → TestReach (testTypeDigit s c)
  | backspace {s : TestState} :
      TestReach s → TestReach (testBackspace s)
  | submit {s : TestState} (msgIdx : ℕ) (profile_id profile_name : String)
      (now : DateTime) :
      TestReach s → TestReach (testSubmit s msgIdx profile_id profile_name now)
  | tick {s : TestState} (delta_time : ℚ) (profile_id profile_name : String)
      (now : DateTime) :
      TestReach s → TestReach (testUpdate s delta_time profile_id profile_name now)

/-! ### scenes/practice_session.py — PracticeSessionScene -/

/-- `avg_time = stats["total_time"] / attempts if attempts else 0.0`. -/
def avgResponseTime (st : TableStat) : ℚ :=
  if st.questions ≠ 0 then st.total_time / st.questions else 0

/-- The weight list `_select_table` builds: for each configured table,
`max(1.0 + incorrect*2.5 + avg_time/4.0, 0.1)`. -/
def selectWeights (m : List (ℕ × TableStat)) (tables : List ℕ) : List ℚ :=
  tables.map fun t =>
    let st := statGet m t
    max (1 + st.incorrect * (5/2) + avgResponseTime st / 4) (1/10)

/-- Outcome of `_select_table`'s branching: either the degenerate
`total_weight == 0` branch (a uniform `random.choice`) or a table picked by
the cumulative-weight walk. -/
inductive SelectOutcome where
  | uniformFallback
  | picked (t : ℕ)
deriving DecidableEq, Repr

/-- The `for table, weight in zip(tables, weights)` walk: accumulate, and
return the first table whose cumulative weight reaches the draw `r`. -/
def selectWalk (pairs : List (ℕ × ℚ)) (cumulative r : ℚ) : Option ℕ :=
  match pairs with
  | [] => none
  | (t, w) :: rest =>
      let c := cumulative + w
      if r ≤ c then some t else selectWalk rest c r

/-- `PracticeSessionScene._select_table`, with the uniform draw
`r ∈ [0, total_weight)` made explicit. After the loop the source falls back
to `tables[-1]` (reachable only through float rounding, hence never in this
exact-arithmetic embedding when `0 ≤ r < total`). -/
def selectTable (m : List (ℕ × TableStat)) (tables : List ℕ) (r : ℚ) :
    SelectOutcome :=
  let weights := selectWeights m tables
  if weights.sum = 0 then .uniformFallback
  else .picked ((selectWalk (tables.zip weights) 0 r).getD (tables.getLastD 0))

/-- Resolve a `SelectOutcome` to the returned table; `choiceIdx` stands for
the `random.choice(tables)` draw of the degenerate branch. -/
def SelectOutcome.resolve (o : SelectOutcome) (tables : List ℕ) (choiceIdx : ℕ) : ℕ :=
  match o with
  | .uniformFallback => tables.getD choiceIdx 0
  | .picked t => t

/-- Practice-session state (logic fields only; rendering fields omitted).
`profile_coins` is the active profile's balance, visible to the scene via
`self.app` — practice logic never touches it. -/
structure PracticeState where
  tables : List ℕ               -- config.tables
  table_stats : List (ℕ × TableStat)
  history : List (Question × String × Bool × ℚ)
  elapsed : ℚ
  question_start_time : ℚ
  feedback_message : String
  feedback_timer : ℚ
  input_value : String
  total_attempts : ℕ
  correct_answers : ℕ
  streak : ℕ
  current_question : Question
  awaiting_retry : Bool
  profile_coins : ℤ
deriving DecidableEq, Repr

/-- `PracticeSessionScene._create_question`: select a table (draw `r`),
draw the right operand uniformly in 1..10 (`rightOp`), and reset
`question_start_time`; the left operand is always the selected table. -/
def practiceCreateQuestion (s : PracticeState) (r : ℚ) (rightOp choiceIdx : ℕ) :
    Question × PracticeState :=
  let table := (selectTable s.table_stats s.tables r).resolve s.tables choiceIdx
  (⟨table, rightOp⟩, { s with question_start_time := s.elapsed })

/-- `PracticeSessionScene._determine_table`: prefer the left operand when
configured, else the right, else fall back to the *left* operand (unlike
the test scene's larger-operand fallback). -/
def determineTablePractice (tables : List ℕ) (q : Question) : ℕ :=
  if q.left ∈ tables then q.left
  else if q.right ∈ tables then q.right
  else q.left

/-- `PracticeSessionScene._submit_answer`. `posMsg` resolves the
`random.choice` over the positive feedback strings; `r`, `rightOp` and
`choiceIdx` resolve the random draws of the fresh question generated after
a correct answer (unused otherwise, as no draw happens). -/
def practiceSubmit (s : PracticeState) (posMsg : String) (r : ℚ)
    (rightOp choiceIdx : ℕ) : PracticeState :=
  if s.input_value = "" then
    { s with feedback_message := "Tik eerst een antwoord in.", feedback_timer := 3/2 }
  else
    match pyParseInt s.input_value with
    | none =>
        { s with
          feedback_message := "Gebruik alleen cijfers."
          feedback_timer := 3/2
          input_value := "" }
    | some guess =>
        let q := s.current_question
        let answer_time : ℚ := max (s.elapsed - s.question_start_time) 0
        let is_correct : Bool := guess = (q.answer : ℤ)
        let s := { s with total_attempts := s.total_attempts + 1 }
        let s :=
          { s with
            table_stats := statUpdate s.table_stats
              (determineTablePractice s.tables q)
              (statRecord is_correct answer_time) }
        let s := { s with history := s.history ++ [(q, s.input_value, is_correct, answer_time)] }
        let s :=
          if is_correct then
            let s :=
              { s with
                correct_answers := s.correct_answers + 1
                streak := s.streak + 1
                feedback_message := posMsg
                feedback_timer := 1 }
            let fresh := practiceCreateQuestion s r rightOp choiceIdx
            { fresh.2 with current_question := fresh.1, awaiting_retry := false }
          else
            { s with
              streak := 0
              feedback_message :=
                "Bijna! " ++ toString q.left ++ " x " ++ toString q.right ++
                  " = " ++ toString q.answer
              feedback_timer := 5/2
              awaiting_retry := true }
        { s with input_value := "" }

/-- The initial feedback prompt (`tr` lookups are resolved to their inline
default strings throughout: the locale files are external asset data, out
of the engine's scope). -/
def practiceInitialPrompt : String := "Typ het antwoord en druk op ENTER"

/-- `PracticeSessionScene.__init__` (logic fields), ending with the first
`_create_question` draw (`r`, `rightOp`, `choiceIdx`). -/
def initPracticeState (tables : List ℕ) (coins : ℤ) (r : ℚ)
    (rightOp choiceIdx : ℕ) : PracticeState :=
  let base : PracticeState :=
    { tables := tables
      table_stats := []
      history := []
      elapsed := 0
      question_start_time := 0
      feedback_message := practiceInitialPrompt
      feedback_timer := 0
      input_value := ""
      total_attempts := 0
      correct_answers := 0
      streak := 0
      current_question := ⟨0, 0⟩
      awaiting_retry := false
      profile_coins := coins }
  let fq := practiceCreateQuestion base r rightOp choiceIdx
  { fq.2 with current_question := fq.1 }

/-- `PracticeSessionScene.handle_events`, digit key. -/
def practiceTypeDigit (s : PracticeState) (c : Char) : PracticeState :=
  if c.isDigit ∧ s.input_value.length < 4 then
    { s with input_value := s.input_value.push c }
  else s

/-- `PracticeSessionScene.handle_events`, backspace/delete. -/
def practiceBackspace (s : PracticeState) : PracticeState :=
  { s with input_value := s.input_value.dropRight 1 }

/-- `PracticeSessionScene.update`: advance the clock and decay the
feedback timer back towards the initial prompt. -/
def practiceUpdate (s : PracticeState) (delta_time : ℚ) : PracticeState :=
  let s := { s with elapsed := s.elapsed + delta_time }
  if 0 < s.feedback_timer then
    let ft := max (s.feedback_timer - delta_time) 0
    { s with
      feedback_timer := ft
      feedback_message := if ft = 0 then practiceInitialPrompt else s.feedback_message }
  else s

/-- The practice-session states reachable by the frame loop. -/
inductive PracticeReach : PracticeState → Prop
  | init (tables : List ℕ) (coins : ℤ) (r : ℚ) (rightOp choiceIdx : ℕ) :
      PracticeReach (initPracticeState tables coins r rightOp choiceIdx)
  | typeDigit {s : PracticeState} (c : Char) :
      PracticeReach s → PracticeReach (practiceTypeDigit s c)
  | backspace {s : PracticeState} :
      PracticeReach s → PracticeReach (practiceBackspace s)
  | submit {s : PracticeState} (posMsg : String) (r : ℚ) (rightOp choiceIdx : ℕ) :
      PracticeReach s → PracticeReach (practiceSubmit s posMsg r rightOp choiceIdx)
  | tick {s : PracticeState} (delta_time : ℚ) :
      PracticeReach s → PracticeReach (practiceUpdate s delta_time)

/-! ### JSON payloads — models.TestResult.to_serialisable / from_serialisable

A JSON-ish value universe. Strings carry a provenance tag where the stdlib
contract matters: `jiso d` is the string `d.isoformat()` (with
`datetime.fromisoformat` returning `d` on it, per the stdlib), `jintstr n`
is the string `str(n)` for an integer `n` (with `int` returning `n` on it),
and `jstr` is any other string. -/

inductive JValue where
  | jnull
  | jint (n : ℤ)
  | jfloat (q : ℚ)
  | jstr (s : String)
  | jintstr (n : ℤ)
  | jiso (d : DateTime)
  | jlist (xs : List JValue)
  | jobj (entries : List (JValue × JValue))

/-- Python dict key equality on the (hashable, scalar) key shapes that can
occur in these payloads. -/
def jKeyEq : JValue → JValue → Bool
  | .jnull, .jnull => true
  | .jint a, .jint b => a = b
  | .jfloat a, .jfloat b => a = b
  | .jstr a, .jstr b => a = b
  | .jintstr a, .jintstr b => a = b
  | .jiso a, .jiso b => a = b
  | _, _ => false

/-- `dict.get(key)`: the first (unique, in a real dict) matching entry. -/
def jGet (entries : List (JValue × JValue)) (k : JValue) : Option JValue :=
  (entries.find? fun p => jKeyEq p.1 k).map fun p => p.2

/-- `payload.get(key, default)` with a string key. -/
def pyGet (entries : List (JValue × JValue)) (k : String) (default : JValue) : JValue :=
  (jGet entries (.jstr k)).getD default

/-- `from_serialisable._as_int`: `int(value)` with a fallback default on
`TypeError`/`ValueError`. -/
def asIntD (v : JValue) (default : ℤ) : ℤ :=
  match v with
  | .jint n => n
  | .jfloat q => pyTrunc q
  | .jintstr n => n
  | .jstr s => (pyParseInt s).getD default
  | _ => default

/-- `from_serialisable._as_float`: `float(value)` with a fallback default.
(Fractional string literals are not modelled; no producer emits them.) -/
def asFloatD (v : JValue) (default : ℚ) : ℚ :=
  match v with
  | .jint n => (n : ℚ)
  | .jfloat q => q
  | .jintstr n => (n : ℚ)
  | .jstr s => ((pyParseInt s).map fun n => (n : ℚ)).getD default
  | _ => default

/-- `try: int(item) except (TypeError, ValueError): skip`. -/
def jTryInt (v : JValue) : Option ℤ :=
  match v with
  | .jint n => some n
  | .jfloat q => some (pyTrunc q)
  | .jintstr n => some n
  | .jstr s => pyParseInt s
  | _ => none

/-- `str(value)` on the payload shapes it is applied to. -/
def pyStr (v : JValue) : String :=
  match v with
  | .jstr s => s
  | .jint n => toString n
  | .jintstr n => toString n
  | .jnull => "None"
  | _ => ""

/-- One `table_stats` value as serialized: the four fixed float entries. -/
def statToJ (st : TableStat) : JValue :=
  .jobj
    [ (.jstr "questions", .jfloat st.questions)
    , (.jstr "correct", .jfloat st.correct)
    , (.jstr "incorrect", .jfloat st.incorrect)
    , (.jstr "total_time", .jfloat st.total_time) ]

/-- `TestResult.to_serialisable`: `asdict(self)` (keys in dataclass field
order) with `tables` listed, `timestamp` rendered to ISO-8601 and
`table_stats` re-keyed by `str(table)`. -/
def TestResult.to_serialisable (r : TestResult) : List (JValue × JValue) :=
  [ (.jstr "profile_id", .jstr r.profile_id)
  , (.jstr "profile_name", .jstr r.profile_name)
  , (.jstr "tables", .jlist (r.tables.map fun t => .jint t))
  , (.jstr "question_count", .jint r.question_count)
  , (.jstr "answered", .jint r.answered)
  , (.jstr "correct", .jint r.correct)
  , (.jstr "incorrect", .jint r.incorrect)
  , (.jstr "time_limit_seconds", .jint r.time_limit_seconds)
  , (.jstr "elapsed_seconds", .jfloat r.elapsed_seconds)
  , (.jstr "timestamp", .jiso r.timestamp)
  , (.jstr "table_stats",
      .jobj (r.table_stats.map fun p => (.jintstr p.1, statToJ p.2))) ]

/-- One `table_stats` entry parsed back: the key must convert via `int`,
the value must be a dict; each of the four counters is read with default. -/
def statEntryFromJ (p : JValue × JValue) : Option (ℤ × TableStat) :=
  match jTryInt p.1 with
  | none => none
  | some k =>
      match p.2 with
      | .jobj stat =>
          some (k,
            { questions := asFloatD ((jGet stat (.jstr "questions")).getD .jnull) 0
              correct := asFloatD ((jGet stat (.jstr "correct")).getD .jnull) 0
              incorrect := asFloatD ((jGet stat (.jstr "incorrect")).getD .jnull) 0
              total_time := asFloatD ((jGet stat (.jstr "total_time")).getD .jnull) 0 })
      | _ => none

/-- `TestResult.from_serialisable`, with `now` the `datetime.now()` fallback
used when the stored timestamp is absent or unparseable. -/
def TestResult.from_serialisable (payload : List (JValue × JValue)) (now : DateTime) :
    TestResult :=
  let tables : List ℤ :=
    match pyGet payload "tables" (.jlist []) with
    | .jlist xs => xs.filterMap jTryInt
    | _ => []
  let timestamp : DateTime :=
    match (jGet payload (.jstr "timestamp")).getD .jnull with
    | .jiso d => d
    | _ => now
  let table_stats : List (ℤ × TableStat) :=
    match pyGet payload "table_stats" (.jobj []) with
    | .jobj entries => entries.filterMap statEntryFromJ
    | _ => []
  let elapsed_value : JValue :=
    match jGet payload (.jstr "elapsed_seconds") with
    | some v => v
    | none => (jGet payload (.jstr "elapsed")).getD (.jfloat 0)
  { profile_id := pyStr (pyGet payload "profile_id" (.jstr ""))
    profile_name := pyStr (pyGet payload "profile_name" (.jstr ""))
    tables := tables
    question_count := asIntD (pyGet payload "question_count" .jnull) 0
    answered := asIntD (pyGet payload "answered" .jnull) 0
    correct := asIntD (pyGet payload "correct" .jnull) 0
    incorrect := asIntD (pyGet payload "incorrect" .jnull) 0
    time_limit_seconds := asIntD (pyGet payload "time_limit_seconds" .jnull) 0
    elapsed_seconds := asFloatD elapsed_value 0
    timestamp := timestamp
    table_stats := table_stats }

/-! ### scenes/progress_overview.py — ProgressOverviewScene aggregation -/

/-- `models.PlayerProfile` (identity fields). -/
structure PlayerProfile where
  identifier : String
  display_name : String
  avatar_filename : String
  coins : ℤ
deriving DecidableEq, Repr

/-- `app.adjust_active_coins`: clamp the balance at zero. -/
def adjust_active_coins (coins delta : ℤ) : ℤ := max 0 (coins + delta)

/-- `progress_overview.ProfileSummary` (`last_played` is always the
maximum of a non-empty timestamp list when a summary is built). -/
structure ProfileSummary where
  profile_id : String
  display_name : String
  tests : ℕ
  average_accuracy : ℚ
  best_accuracy : ℚ
  last_played : DateTime
deriving DecidableEq, Repr

/-- One `_aggregate_tricky_tables` accumulator entry:
`(incorrect, questions, total_time)` sums. -/
def combUpdate (m : List (ℤ × (ℚ × ℚ × ℚ))) (t : ℤ) (st : TableStat) :
    List (ℤ × (ℚ × ℚ × ℚ)) :=
  match m with
  | [] => [(t, (st.incorrect, st.questions, st.total_time))]
  | (k, v) :: rest =>
      if k = t then
        (k, (v.1 + st.incorrect, v.2.1 + st.questions, v.2.2 + st.total_time)) :: rest
      else (k, v) :: combUpdate rest t st

/-- The `combined` dict of `_aggregate_tricky_tables`: per-table sums of
`incorrect`, `questions` and `total_time` across all results. -/
def aggCombined (results : List TestResult) : List (ℤ × (ℚ × ℚ × ℚ)) :=
  results.foldl
    (fun acc res => res.table_stats.foldl (fun a p => combUpdate a p.1 p.2) acc)
    []

/-- Descending lexicographic comparison on a `(incorrect, avg_time)` key
pair — Python's `sort(key=..., reverse=True)` (stable, ties keep their
original order). -/
def pairDescLe (a b : ℚ × ℚ) : Bool :=
  decide (b.1 < a.1 ∨ (b.1 = a.1 ∧ b.2 ≤ a.2))

/-- The `summary` list of `_aggregate_tricky_tables`: one
`(table, incorrect, avg_time)` entry per aggregated table, with
`avg_time = total_time/questions` (0 without attempts). -/
def trickySummary (results : List TestResult) : List (ℤ × ℚ × ℚ) :=
  (aggCombined results).map fun p =>
    (p.1, p.2.1, if p.2.2.1 ≠ 0 then p.2.2.2 / p.2.2.1 else 0)

/-- The `summary.sort(key=..., reverse=True)` step: stable sort descending
by the `(incorrect, avg_time)` pair. -/
def trickySorted (results : List TestResult) : List (ℤ × ℚ × ℚ) :=
  (trickySummary results).mergeSort fun a b => pairDescLe (a.2.1, a.2.2) (b.2.1, b.2.2)

/-- `ProgressOverviewScene._aggregate_tricky_tables`: per-table sums,
average response time (0 without attempts), stable sort descending by
`(incorrect, avg_time)`, top four (`summary[:4]`). -/
def aggregateTrickyTables (results : List TestResult) : List (ℤ × ℚ × ℚ) :=
  (trickySorted results).take 4

/-- Python `max` over a (non-empty) accuracy list. -/
def qListMax : List ℚ → ℚ
  | [] => 0
  | x :: xs => xs.foldl max x

/-- Python `max` over a (non-empty) timestamp list. -/
def dtListMax : List DateTime → DateTime
  | [] => ⟨0⟩
  | x :: xs => xs.foldl dtMax x

/-- One leaderboard row, from a profile and its (parsed) stored results;
`none` when the profile has no results. -/
def summariseProfile (p : PlayerProfile) (results : List TestResult) :
    Option ProfileSummary :=
  if results = [] then none
  else
    let tests := results.length
    let total_accuracy := (results.map TestResult.accuracy).sum
    let best_accuracy := qListMax (results.map TestResult.accuracy)
    let average_accuracy : ℚ :=
      if tests ≠ 0 then total_accuracy / (tests : ℚ) else 0
    let last_played := dtListMax (results.map fun r => r.timestamp)
    some
      { profile_id := p.identifier
        display_name := p.display_name
        tests := tests
        average_accuracy := average_accuracy
        best_accuracy := best_accuracy
        last_played := last_played }

/-- Descending lexicographic comparison on `(average_accuracy, tests)`. -/
def summaryDescLe (a b : ProfileSummary) : Bool :=
  decide (b.average_accuracy < a.average_accuracy ∨
    (b.average_accuracy = a.average_accuracy ∧ b.tests ≤ a.tests))

/-- `ProgressOverviewScene._build_leaderboard` over every profile with its
stored results (summary aggregates are invariant under `_parse_results`'s
chronological re-sort, so results are taken as given): keep the profiles
with at least one result, stable-sort descending by
`(average_accuracy, tests)`. -/
def buildLeaderboard (data : List (PlayerProfile × List TestResult)) :
    List ProfileSummary :=
  let summaries := data.filterMap fun pr => summariseProfile pr.1 pr.2
  summaries.mergeSort summaryDescLe

/-! ### Spec-side definitions (written from the specification's wording,
for comparison against the source embeddings above) -/

/-- Claim C3's weight formula:
`weight(t) = max(0.1, 1.0 + incorrect(t)*2.5 + avg_response_time(t)/4.0)`. -/
def claimWeight (m : List (ℕ × TableStat)) (t : ℕ) : ℚ :=
  max (1/10) (1 + (statGet m t).incorrect * (5/2) + avgResponseTime (statGet m t) / 4)

/-- Cumulative weight sums starting from `c`. -/
def cumSumsAux : List ℚ → ℚ → List ℚ
  | [], _ => []
  | w :: ws, c => (c + w) :: cumSumsAux ws (c + w)

/-- Claim C3's described selection: the first table (in configured order)
whose cumulative weight is `≥ r`, the last table if `r` exceeds every
cumulative sum. -/
def specSelectC3 (m : List (ℕ × TableStat)) (tables : List ℕ) (r : ℚ) : ℕ :=
  match (tables.zip (cumSumsAux (tables.map (claimWeight m)) 0)).find?
      (fun p => decide (r ≤ p.2)) with
  | some p => p.1
  | none => tables.getLastD 0

/-! ### Helper lemmas -/

theorem selectWeights_eq_map_claimWeight (m : List (ℕ × TableStat)) (tables : List ℕ) :
    selectWeights m tables = tables.map (claimWeight m) := by
  unfold selectWeights claimWeight
  exact List.map_congr_left fun t _ => max_comm _ _

theorem claimWeight_ge (m : List (ℕ × TableStat)) (t : ℕ) :
    (1 : ℚ)/10 ≤ claimWeight m t := le_max_left _ _

theorem selectWeights_sum_pos (m : List (ℕ × TableStat)) (tables : List ℕ)
    (h : tables ≠ []) : 0 < (selectWeights m tables).sum := by
  apply List.sum_pos
  · intro w hw
    rw [selectWeights_eq_map_claimWeight] at hw
    obtain ⟨t, _, rfl⟩ := List.mem_map.mp hw
    exact lt_of_lt_of_le (by norm_num) (claimWeight_ge m t)
  · rw [selectWeights_eq_map_claimWeight]
    simpa using h

theorem selectWalk_eq_find (ts : List ℕ) :
    ∀ (ws : List ℚ) (c r : ℚ),
      selectWalk (ts.zip ws) c r =
        ((ts.zip (cumSumsAux ws c)).find? fun p => decide (r ≤ p.2)).map Prod.fst := by
  induction ts with
  | nil => intro ws c r; simp [selectWalk]
  | cons t ts ih =>
      intro ws c r
      cases ws with
      | nil => simp [selectWalk, cumSumsAux]
      | cons w ws =>
          simp only [List.zip_cons_cons, cumSumsAux, selectWalk, List.find?]
          by_cases hr : r ≤ c + w
          · simp [hr]
          · have h2 := ih ws (c + w) r
            simp [hr, List.zip] at h2 ⊢
            exact h2

theorem selectWalk_mem (ps : List (ℕ × ℚ)) :
    ∀ (c r : ℚ) (t : ℕ), selectWalk ps c r = some t → t ∈ ps.map Prod.fst := by
  induction ps with
  | nil => intro c r t h; simp [selectWalk] at h
  | cons p ps ih =>
      intro c r t h
      obtain ⟨pt, pw⟩ := p
      simp only [selectWalk] at h
      by_cases hr : r ≤ c + pw
      · simp [hr] at h
        simp [h]
      · simp [hr] at h
        exact List.mem_cons_of_mem _ (ih _ _ _ h)

theorem getLastD_mem (l : List ℕ) (d : ℕ) (h : l ≠ []) : l.getLastD d ∈ l := by
  induction l generalizing d with
  | nil => exact absurd rfl h
  | cons a l ih =>
      cases l with
      | nil => simp [List.getLastD]
      | cons b l =>
          have hmem := ih a (by simp)
          simp [List.getLastD] at hmem ⊢

/-! ### Claim theorems -/

/-- **C3.** In practice mode, for every table-selection draw with a
non-empty configured table list, the selector computes exactly the claimed
weights (`max(0.1, 1 + incorrect*2.5 + avg_time/4)` with `avg_time = 0`
when there are no attempts), and returns the first table in configured
order whose cumulative weight is `≥ r`, or the last table when `r` exceeds
every cumulative sum — never the degenerate uniform branch. -/
theorem C3_weighted_selection (m : List (ℕ × TableStat)) (tables : List ℕ)
    (r : ℚ) (h : tables ≠ []) :
    selectWeights m tables = tables.map (claimWeight m) ∧
    selectTable m tables r = .picked (specSelectC3 m tables r) := by
  refine ⟨selectWeights_eq_map_claimWeight m tables, ?_⟩
  unfold selectTable
  have hsum : (selectWeights m tables).sum ≠ 0 :=
    ne_of_gt (selectWeights_sum_pos m tables h)
  simp only [hsum, if_false]
  congr 1
  rw [selectWeights_eq_map_claimWeight, selectWalk_eq_find]
  unfold specSelectC3
  cases (tables.zip (cumSumsAux (tables.map (claimWeight m)) 0)).find?
      (fun p => decide (r ≤ p.2)) with
  | none => rfl
  | some p => rfl

/-- Witness for C3 at a concrete state: one table, empty statistics. -/
theorem C3_weighted_selection_witness :
    selectWeights [] [7] = [7].map (claimWeight []) ∧
    selectTable [] [7] 0 = .picked (specSelectC3 [] [7] 0) :=
  C3_weighted_selection [] [7] 0 (by decide)

/-- **C10.** For every non-empty configured table list, every selection
weight is at least `0.1`, the total weight is strictly positive, the
zero-total-weight uniform fallback is never taken, and the selector
returns a configured table. -/
theorem C10_selector_safety (m : List (ℕ × TableStat)) (tables : List ℕ)
    (r : ℚ) (h : tables ≠ []) :
    (∀ w ∈ selectWeights m tables, (1 : ℚ)/10 ≤ w) ∧
    0 < (selectWeights m tables).sum ∧
    selectTable m tables r ≠ .uniformFallback ∧
    ∃ t ∈ tables, selectTable m tables r = .picked t := by
  refine ⟨?_, selectWeights_sum_pos m tables h, ?_, ?_⟩
  · intro w hw
    rw [selectWeights_eq_map_claimWeight] at hw
    obtain ⟨t, _, rfl⟩ := List.mem_map.mp hw
    exact claimWeight_ge m t
  · unfold selectTable
    simp [ne_of_gt (selectWeights_sum_pos m tables h)]
  · unfold selectTable
    simp only [ne_of_gt (selectWeights_sum_pos m tables h), if_false]
    cases hwalk : selectWalk (tables.zip (selectWeights m tables)) 0 r with
    | none =>
        exact ⟨tables.getLastD 0, getLastD_mem tables 0 h, rfl⟩
    | some t =>
        refine ⟨t, ?_, rfl⟩
        have hmem := selectWalk_mem _ _ _ _ hwalk
        have hlen : tables.length ≤ (selectWeights m tables).length := by
          rw [selectWeights_eq_map_claimWeight, List.length_map]
        rw [List.map_fst_zip _ _ hlen] at hmem
        exact hmem

/-- Witness for C10 at a concrete state: one table, empty statistics. -/
theorem C10_selector_safety_witness :
    (∀ w ∈ selectWeights [] [7], (1 : ℚ)/10 ≤ w) ∧
    0 < (selectWeights [] [7]).sum ∧
    selectTable [] [7] 0 ≠ .uniformFallback ∧
    ∃ t ∈ [7], selectTable [] [7] 0 = .picked t :=
  C10_selector_safety [] [7] 0 (by decide)

/-! ### C6: serialization round trip -/

theorem statEntryFromJ_round (p : ℤ × TableStat) :
    statEntryFromJ (JValue.jintstr p.1, statToJ p.2) = some p := by
  simp [statEntryFromJ, jTryInt, statToJ, jGet, jKeyEq, asFloatD]

theorem filterMap_statEntryFromJ (l : List (ℤ × TableStat)) :
    (l.filterMap (statEntryFromJ ∘ fun p => (JValue.jintstr p.1, statToJ p.2))) = l := by
  induction l with
  | nil => rfl
  | cons p l ih => simp [statEntryFromJ_round, ih, Function.comp]

theorem filterMap_jTryInt_jint (l : List ℤ) :
    (l.filterMap (jTryInt ∘ fun t => JValue.jint t)) = l := by
  induction l with
  | nil => rfl
  | cons t l ih => simp [jTryInt, ih, Function.comp]

/-- **C6.** Serializing a `TestResult` and deserializing the payload
reconstructs the record exactly: same tables in the same order, the same
integer-keyed `table_stats` with the same four counters, the same scalar
fields, and the timestamp recovered from its ISO-8601 form (the
`datetime.now()` fallback `now` is not consulted). -/
theorem C6_serialisation_round_trip (r : TestResult) (now : DateTime) :
    TestResult.from_serialisable r.to_serialisable now = r := by
  simp only [TestResult.from_serialisable, TestResult.to_serialisable, pyGet, jGet,
    jKeyEq, List.find?, asIntD, asFloatD, pyStr]
  simp [filterMap_statEntryFromJ, filterMap_jTryInt_jint]

/-! ### C9: rejection of empty / non-numeric input -/

/-- **C9.** In both session modes, submitting empty input or non-numeric
input changes no statistics and neither advances nor replaces the current
question: the empty case only sets a validation message (and its timer),
the non-numeric case additionally clears the input buffer; counters,
per-table stats, history and the current question are untouched. -/
theorem C9_invalid_input (ps : PracticeState) (ts : TestState)
    (posMsg : String) (r : ℚ) (rightOp choiceIdx msgIdx : ℕ)
    (pid pname : String) (now : DateTime) :
    (ps.input_value = "" →
      practiceSubmit ps posMsg r rightOp choiceIdx =
        { ps with
          feedback_message := "Tik eerst een antwoord in."
          feedback_timer := 3/2 }) ∧
    (ps.input_value ≠ "" → pyParseInt ps.input_value = none →
      practiceSubmit ps posMsg r rightOp choiceIdx =
        { ps with
          feedback_message := "Gebruik alleen cijfers."
          feedback_timer := 3/2
          input_value := "" }) ∧
    (ts.input_value = "" → ts.current_index < ts.questions.length →
      testSubmit ts msgIdx pid pname now =
        { ts with
          feedback_message := "Tik eerst een antwoord in."
          feedback_timer := 3/2 }) ∧
    (ts.input_value ≠ "" → pyParseInt ts.input_value = none →
      ts.current_index < ts.questions.length →
      testSubmit ts msgIdx pid pname now =
        { ts with
          feedback_message := "Gebruik alleen cijfers."
          feedback_timer := 3/2
          input_value := "" }) := by
  refine ⟨?_, ?_, ?_, ?_⟩
  · intro he
    unfold practiceSubmit
    simp [he]
  · intro hne hparse
    unfold practiceSubmit
    simp [hne, hparse]
  · intro he hlt
    unfold testSubmit
    simp [he, Nat.not_le.mpr hlt]
  · intro hne hparse hlt
    unfold testSubmit
    simp [hne, hparse, Nat.not_le.mpr hlt]

/-- A concrete practice state used by witnesses. -/
def witnessPracticeState : PracticeState :=
  { tables := [3]
    table_stats := []
    history := []
    elapsed := 0
    question_start_time := 0
    feedback_message := ""
    feedback_timer := 0
    input_value := ""
    total_attempts := 0
    correct_answers := 0
    streak := 0
    current_question := ⟨3, 4⟩
    awaiting_retry := false
    profile_coins := 5 }

/-- A concrete test-session state used by witnesses. -/
def witnessTestState : TestState :=
  initTestState [3] 2 60 "Slak" [⟨3, 4⟩, ⟨3, 5⟩]

/-- Witness for C9: the empty-input case on a concrete practice state and
the non-numeric case on a concrete test state. -/
theorem C9_invalid_input_witness :
    practiceSubmit witnessPracticeState "Top!" 0 1 0 =
      { witnessPracticeState with
        feedback_message := "Tik eerst een antwoord in."
        feedback_timer := 3/2 } ∧
    testSubmit { witnessTestState with input_value := "a" } 0 "p" "n" ⟨0⟩ =
      { witnessTestState with
        feedback_message := "Gebruik alleen cijfers."
        feedback_timer := 3/2
        input_value := "" } := by
  refine ⟨?_, ?_⟩
  · exact (C9_invalid_input witnessPracticeState witnessTestState
      "Top!" 0 1 0 0 "p" "n" ⟨0⟩).1 rfl
  · exact (C9_invalid_input witnessPracticeState
        { witnessTestState with input_value := "a" }
        "Top!" 0 1 0 0 "p" "n" ⟨0⟩).2.2.2
      (by decide) (by decide) (by decide)

/-! ### C4: practice advance on correct, retry on incorrect -/

/-- **C4.** In a practice session, a valid correct answer replaces the
current question by a freshly generated one (drawn from the just-updated
statistics) and clears the input buffer; a valid incorrect answer leaves
the current question in place for a retry (`awaiting_retry`), clears the
input buffer, and in both cases the remaining state receives exactly the
prescribed updates (attempt counter, per-table stats, history, streak and
feedback). -/
theorem C4_practice_question_flow (s : PracticeState) (posMsg : String)
    (r : ℚ) (rightOp choiceIdx : ℕ) (g : ℤ)
    (hparse : pyParseInt s.input_value = some g) :
    (g = (s.current_question.answer : ℤ) →
      practiceSubmit s posMsg r rightOp choiceIdx =
        { s with
          total_attempts := s.total_attempts + 1
          table_stats := statUpdate s.table_stats
            (determineTablePractice s.tables s.current_question)
            (statRecord true (max (s.elapsed - s.question_start_time) 0))
          history := s.history ++
            [(s.current_question, s.input_value, true,
              max (s.elapsed - s.question_start_time) 0)]
          correct_answers := s.correct_answers + 1
          streak := s.streak + 1
          feedback_message := posMsg
          feedback_timer := 1
          question_start_time := s.elapsed
          current_question :=
            ⟨(selectTable
                (statUpdate s.table_stats
                  (determineTablePractice s.tables s.current_question)
                  (statRecord true (max (s.elapsed - s.question_start_time) 0)))
                s.tables r).resolve s.tables choiceIdx, rightOp⟩
          awaiting_retry := false
          input_value := "" }) ∧
    (g ≠ (s.current_question.answer : ℤ) →
      practiceSubmit s posMsg r rightOp choiceIdx =
        { s with
          total_attempts := s.total_attempts + 1
          table_stats := statUpdate s.table_stats
            (determineTablePractice s.tables s.current_question)
            (statRecord false (max (s.elapsed - s.question_start_time) 0))
          history := s.history ++
            [(s.current_question, s.input_value, false,
              max (s.elapsed - s.question_start_time) 0)]
          streak := 0
          feedback_message :=
            "Bijna! " ++ toString s.current_question.left ++ " x " ++
              toString s.current_question.right ++ " = " ++
              toString s.current_question.answer
          feedback_timer := 5/2
          awaiting_retry := true
          input_value := "" }) := by
  have hne : s.input_value ≠ "" := by
    intro he
    rw [he] at hparse
    simp [pyParseInt] at hparse
  constructor
  · intro hg
    unfold practiceSubmit
    simp [hne, hparse, hg, practiceCreateQuestion]
  · intro hg
    unfold practiceSubmit
    simp [hne, hparse, hg]

/-- Witness for C4: on the concrete practice state (question `3 × 4`),
submitting `"12"` advances to a fresh question and submitting `"11"`
keeps the same question awaiting a retry. -/
theorem C4_practice_question_flow_witness :
    (practiceSubmit { witnessPracticeState with input_value := "12" } "Top!" 0 1 0).current_question
        = ⟨3, 1⟩ ∧
    (practiceSubmit { witnessPracticeState with input_value := "11" } "Top!" 0 1 0).current_question
        = ⟨3, 4⟩ ∧
    (practiceSubmit { witnessPracticeState with input_value := "11" } "Top!" 0 1 0).awaiting_retry
        = true := by
  have h12 := (C4_practice_question_flow
      { witnessPracticeState with input_value := "12" } "Top!" 0 1 0 12
      (by decide)).1 (by decide)
  have h11 := (C4_practice_question_flow
      { witnessPracticeState with input_value := "11" } "Top!" 0 1 0 11
      (by decide)).2 (by decide)
  refine ⟨?_, ?_, ?_⟩
  · rw [h12]
    dsimp only
    norm_num [selectTable, selectWeights, statGet, statUpdate, statRecord,
      avgResponseTime, SelectOutcome.resolve, selectWalk, witnessPracticeState,
      TableStat.empty, determineTablePractice, List.find?]
  · rw [h11]; rfl
  · rw [h11]

/-! ### C2: practice-session coin feedback -/

/-- Practice answer submission never touches the profile's coin balance
(no code path of `PracticeSessionScene._submit_answer` reaches
`adjust_active_coins` or any other coin mutation). -/
theorem practiceSubmit_profile_coins (s : PracticeState) (posMsg : String)
    (r : ℚ) (rightOp choiceIdx : ℕ) :
    (practiceSubmit s posMsg r rightOp choiceIdx).profile_coins = s.profile_coins := by
  unfold practiceSubmit
  by_cases he : s.input_value = ""
  · simp [he]
  · simp only [he, if_false, ite_false]
    cases hp : pyParseInt s.input_value with
    | none => simp
    | some g =>
        by_cases hg : g = (s.current_question.answer : ℤ) <;>
          simp [hg, practiceCreateQuestion]

/-- `testFinish` only sets `finished` and `coin_delta`. -/
theorem testFinish_session_coins (s : TestState) (pid pname : String)
    (now : DateTime) :
    (testFinish s pid pname now).session_coins = s.session_coins := by
  unfold testFinish
  by_cases hf : s.finished <;> simp [hf]

/-- A reachable-shaped practice state about to receive an incorrect
answer on table 7. -/
def c2State : PracticeState :=
  { tables := [7]
    table_stats := []
    history := []
    elapsed := 0
    question_start_time := 0
    feedback_message := ""
    feedback_timer := 0
    input_value := "48"
    total_attempts := 0
    correct_answers := 0
    streak := 0
    current_question := ⟨7, 7⟩
    awaiting_retry := false
    profile_coins := 10 }

/-- **C2, counterexample.** A valid (incorrect) practice answer is
processed — the attempt counter advances — yet the profile's coin balance
is unchanged, although the claim requires the non-zero live adjustment
`-max(2, per_question_reward(7)//2) = -2`. No practice code path adjusts
coins at all. -/
theorem C2_counterexample :
    (practiceSubmit c2State "Top!" 0 1 0).profile_coins = c2State.profile_coins ∧
    (practiceSubmit c2State "Top!" 0 1 0).total_attempts = 1 ∧
    c2State.profile_coins + (-(max 2 ((per_question_reward 7 : ℤ) / 2))) ≠
      c2State.profile_coins := by
  refine ⟨practiceSubmit_profile_coins c2State "Top!" 0 1 0, ?_, by decide⟩
  have hp : pyParseInt "48" = some 48 := by decide
  have hne : ("48" : String) ≠ "" := by decide
  simp [practiceSubmit, c2State, hp, hne, Question.answer]

/-- **C2, amended.** Practice sessions apply no per-answer coin
adjustment: the profile balance is untouched by every practice answer
submission. The claimed live formula — `+per_question_reward(table)` when
correct, `-max(2, per_question_reward(table)//2)` when incorrect, with the
running counter clamped at ≥ 0 — is instead applied by the *test* session
to its per-session coin display counter on every valid answer. -/
theorem C2_amended_coin_feedback (s : PracticeState) (posMsg : String)
    (r : ℚ) (rightOp choiceIdx : ℕ) (ts : TestState) (msgIdx : ℕ)
    (pid pname : String) (now : DateTime) (g : ℤ)
    (hlt : ts.current_index < ts.questions.length)
    (hparse : pyParseInt ts.input_value = some g) :
    (practiceSubmit s posMsg r rightOp choiceIdx).profile_coins = s.profile_coins ∧
    (testSubmit ts msgIdx pid pname now).session_coins =
      max 0 (ts.session_coins +
        (if g = ((ts.questions.getD ts.current_index ⟨0, 0⟩).answer : ℤ)
         then (per_question_reward
            (determineTableTest ts.tables (ts.questions.getD ts.current_index ⟨0, 0⟩)) : ℤ)
         else -(max 2 ((per_question_reward
            (determineTableTest ts.tables (ts.questions.getD ts.current_index ⟨0, 0⟩)) : ℤ) / 2)))) := by
  refine ⟨practiceSubmit_profile_coins s posMsg r rightOp choiceIdx, ?_⟩
  have hq : ¬ (ts.questions.length ≤ ts.current_index) := Nat.not_le.mpr hlt
  have hne : ts.input_value ≠ "" := by
    intro he
    rw [he] at hparse
    simp [pyParseInt] at hparse
  have hper : (2 : ℤ) ≤ (per_question_reward
      (determineTableTest ts.tables (ts.questions.getD ts.current_index ⟨0, 0⟩)) : ℤ) := by
    unfold per_question_reward
    push_cast
    omega
  unfold testSubmit
  simp only [hq, if_false, hne, ite_false, hparse]
  by_cases hg : g = ((ts.questions.getD ts.current_index ⟨0, 0⟩).answer : ℤ)
  · have hdelta : per_question_reward
        (determineTableTest ts.tables (ts.questions.getD ts.current_index ⟨0, 0⟩)) ≠ 0 := by
      unfold per_question_reward
      omega
    simp only [hg, decide_eq_true_eq, ite_true, if_true]
    simp [apply_ite TestState.session_coins, testFinish_session_coins, hdelta]
    simp only [List.getD, List.get?_eq_getElem?] at hdelta
    intro hbad
    exact absurd hbad hdelta
  · have hdelta : max 2 ((per_question_reward
        (determineTableTest ts.tables (ts.questions.getD ts.current_index ⟨0, 0⟩)) : ℤ) / 2) ≠ 0 := by
      have h2 : (2 : ℤ) ≤ max 2 ((per_question_reward
          (determineTableTest ts.tables (ts.questions.getD ts.current_index ⟨0, 0⟩)) : ℤ) / 2) :=
        le_max_left _ _
      omega
    simp only [hg, decide_eq_true_eq, ite_false, if_false]
    simp [apply_ite TestState.session_coins, testFinish_session_coins, hdelta, hg]
    simp only [List.getD, List.get?_eq_getElem?] at hdelta
    intro hbad
    exact absurd hbad hdelta

/-- Witness for C2 (amended): a correct test answer credits the session
counter with `per_question_reward(3) = 2`; a practice submission leaves the
profile balance at 10. -/
theorem C2_amended_coin_feedback_witness :
    (practiceSubmit c2State "Top!" 0 1 0).profile_coins = c2State.profile_coins ∧
    (testSubmit { witnessTestState with input_value := "12" } 0 "p" "n" ⟨0⟩).session_coins =
      max 0 (witnessTestState.session_coins +
        (if (12 : ℤ) = ((Question.mk 3 4).answer : ℤ)
         then (per_question_reward (determineTableTest [3] ⟨3, 4⟩) : ℤ)
         else -(max 2 ((per_question_reward (determineTableTest [3] ⟨3, 4⟩) : ℤ) / 2)))) :=
  C2_amended_coin_feedback c2State "Top!" 0 1 0
    { witnessTestState with input_value := "12" } 0 "p" "n" ⟨0⟩ 12
    (by decide) (by decide)

/-! ### C1: test-session payout at termination -/

/-- Claim C1's payout formula, as the claim states it: per-question deltas
summed and clamped at ≥ 0, plus `max(0, time_bonus + speed_bonus)` with
`time_bonus(x) = round(clamp(x, 0, 1) * 8)` — i.e. `rewards`'s *rounding*
time bonus — at `x = remaining_seconds / time_limit_seconds`. -/
def claimPayoutC1 (history : List (Question × String × Bool)) (tables : List ℕ)
    (label : String) (remaining limit : ℚ) : ℤ :=
  max 0 ((history.map fun h =>
      if h.2.2 then ((per_question_reward (determineTableTest tables h.1)) : ℤ)
      else -2).sum) +
    max 0 (time_bonus_from_frac (remaining / limit) + speed_bonus label)

/-- The amended payout formula: identical except that the time bonus is
the *truncating* `int(x * 8)` the source computes inline (with
`x = remaining/limit`, and 0 when the limit is 0), not the rounding
`time_bonus_from_ratio`. -/
def amendedPayoutC1 (history : List (Question × String × Bool)) (tables : List ℕ)
    (label : String) (remaining limit : ℚ) : ℤ :=
  max 0 ((history.map fun h =>
      if h.2.2 then ((per_question_reward (determineTableTest tables h.1)) : ℤ)
      else -2).sum) +
    max 0 (pyTrunc ((if limit ≠ 0 then remaining / limit else 0) * 8) + speed_bonus label)

theorem foldl_reward_sum (tables : List ℕ) (l : List (Question × String × Bool)) :
    ∀ c : ℤ,
      l.foldl
        (fun acc h =>
          if h.2.2 then acc + (per_question_reward (determineTableTest tables h.1) : ℤ)
          else acc - 2) c =
      c + (l.map fun h =>
        if h.2.2 then ((per_question_reward (determineTableTest tables h.1)) : ℤ)
        else -2).sum := by
  induction l with
  | nil => intro c; simp
  | cons h l ih =>
      intro c
      by_cases hc : h.2.2 <;> simp [hc, ih] <;> ring

/-- **C1, amended.** The coin delta computed once at test-session
termination is: the sum over the answered history of
`+per_question_reward(attributed_table)` when correct and a flat `-2`
otherwise, clamped once to ≥ 0, plus
`max(0, time_bonus + speed_bonus(tier))` — where, unlike the claim's
`round(clamp(ratio,0,1)*8)`, the time bonus *truncates*: `int(ratio*8)`
with `ratio = remaining_seconds/time_limit_seconds` (0 when the limit is
0). -/
theorem C1_amended_payout (s : TestState) (pid pname : String) (now : DateTime)
    (h : s.finished = false) :
    (testFinish s pid pname now).coin_delta =
      amendedPayoutC1 s.history s.tables s.speed_label
        (finishResult s pid pname now).remaining_seconds
        ((s.time_limit_seconds : ℤ) : ℚ) := by
  unfold testFinish
  rw [h]
  simp only [Bool.false_eq_true, if_false]
  unfold calculateReward amendedPayoutC1
  rw [foldl_reward_sum]
  simp only [zero_add]
  congr 1
  have hrem : (finishResult { s with finished := true } pid pname now).remaining_seconds =
      (finishResult s pid pname now).remaining_seconds := rfl
  have hlim : (finishResult { s with finished := true } pid pname now).time_limit_seconds =
      (s.time_limit_seconds : ℤ) := rfl
  rw [hrem, hlim]
  by_cases hz : (s.time_limit_seconds : ℤ) = 0
  · simp [hz]
  · have hzq : ((s.time_limit_seconds : ℤ) : ℚ) ≠ 0 := by
      exact_mod_cast hz
    have hn : s.time_limit_seconds ≠ 0 := by exact_mod_cast hz
    simp [hz, hzq, hn]

/-- The completed one-question test session driving the counterexample:
tables `[3]`, one question `3 × 4`, limit 60 s, speed `"Slak"`; one second
elapses, `"12"` is typed and submitted (correct), finishing the session. -/
def c1Final : TestState :=
  testSubmit
    (testTypeDigit
      (testTypeDigit (testUpdate (initTestState [3] 1 60 "Slak" [⟨3, 4⟩]) 1 "p" "n" ⟨0⟩) '1')
      '2')
    0 "p" "n" ⟨5⟩

/-- **C1, counterexample.** On the concrete completed session `c1Final`
(elapsed 1 s of 60, so `remaining = 59`, ratio `59/60`), the code's
termination payout is `2 + int(59/60*8) = 2 + 7 = 9`, while the claim's
formula — with `round(clamp(ratio,0,1)*8) = round(7.8666…) = 8` — gives
`10`. The claim, as stated, is false at this input. -/
theorem C1_counterexample :
    c1Final.finished = true ∧
    c1Final.history = [(⟨3, 4⟩, "12", true)] ∧
    c1Final.elapsed = 1 ∧
    c1Final.time_limit_seconds = 60 ∧
    c1Final.coin_delta = 9 ∧
    claimPayoutC1 [(⟨3, 4⟩, "12", true)] [3] "Slak" (max ((60 : ℚ) - min 1 60) 0) 60 = 10 ∧
    (9 : ℤ) ≠ 10 := by
  have hp1 : ("" : String).push '1' = "1" := by decide
  have hp2 : ("1" : String).push '2' = "12" := by decide
  have hd1 : ('1'.isDigit) = true := by decide
  have hd2 : ('2'.isDigit) = true := by decide
  have hpi : pyParseInt "12" = some 12 := by decide
  have hl0 : ("" : String).length = 0 := by decide
  have hl1 : ("1" : String).length = 1 := by decide
  have hne12 : ("12" : String) ≠ "" := by decide
  have hpre : testTypeDigit
      (testTypeDigit (testUpdate (initTestState [3] 1 60 "Slak" [⟨3, 4⟩]) 1 "p" "n" ⟨0⟩) '1')
      '2' =
      { tables := [3], question_count := 1, time_limit_seconds := 60, speed_label := "Slak",
        questions := [⟨3, 4⟩], current_index := 0, input_value := "12", correct := 0,
        incorrect := 0, history := [], elapsed := 1,
        feedback_message := "Succes! Je kunt met ENTER antwoorden.", feedback_timer := 2,
        finished := false, question_start_time := 0, table_stats := [], session_coins := 0,
        coin_delta := 0 } := by
    norm_num [testTypeDigit, testUpdate, testFinish, initTestState, hp1, hp2, hd1, hd2,
      hl0, hl1]
  have hfin : c1Final =
      { tables := [3], question_count := 1, time_limit_seconds := 60, speed_label := "Slak",
        questions := [⟨3, 4⟩], current_index := 1, input_value := "", correct := 1,
        incorrect := 0, history := [(⟨3, 4⟩, "12", true)], elapsed := 1,
        feedback_message := "Yes!", feedback_timer := 1, finished := true,
        question_start_time := 1, table_stats := [(3, ⟨1, 1, 0, 1⟩)], session_coins := 2,
        coin_delta := 9 } := by
    rw [c1Final, hpre]
    norm_num [testSubmit, testFinish, calculateReward, finishResult, recordTableStat,
      determineTableTest, statUpdate, statRecord, per_question_reward, speed_bonus,
      pyTrunc, TestResult.remaining_seconds, positiveTestFeedback, TableStat.empty,
      Question.answer, hpi, hne12]
  refine ⟨by rw [hfin], by rw [hfin], by rw [hfin], by rw [hfin], by rw [hfin], ?_, by decide⟩
  norm_num [claimPayoutC1, time_bonus_from_frac, determineTableTest, per_question_reward,
    speed_bonus, round_eq, Question.answer]

/-- Witness for C1 (amended) at the freshly initialised session. -/
theorem C1_amended_payout_witness :
    (testFinish (initTestState [3] 1 60 "Slak" [⟨3, 4⟩]) "p" "n" ⟨0⟩).coin_delta =
      amendedPayoutC1 [] [3] "Slak"
        (finishResult (initTestState [3] 1 60 "Slak" [⟨3, 4⟩]) "p" "n" ⟨0⟩).remaining_seconds
        (((60 : ℕ) : ℤ) : ℚ) :=
  C1_amended_payout (initTestState [3] 1 60 "Slak" [⟨3, 4⟩]) "p" "n" ⟨0⟩ rfl

/-! ### C5: TestResult invariants at termination -/

theorem testFinish_history (s : TestState) (pid pname : String) (now : DateTime) :
    (testFinish s pid pname now).history = s.history := by
  unfold testFinish
  by_cases hf : s.finished <;> simp [hf]

theorem testFinish_correct (s : TestState) (pid pname : String) (now : DateTime) :
    (testFinish s pid pname now).correct = s.correct := by
  unfold testFinish
  by_cases hf : s.finished <;> simp [hf]

theorem testFinish_incorrect (s : TestState) (pid pname : String) (now : DateTime) :
    (testFinish s pid pname now).incorrect = s.incorrect := by
  unfold testFinish
  by_cases hf : s.finished <;> simp [hf]

/-- Session bookkeeping invariant: every valid submission appends exactly
one history entry and bumps exactly one of the two counters, so
`len(history) = correct + incorrect` throughout. -/
theorem test_history_invariant (s : TestState) (hr : TestReach s) :
    s.history.length = s.correct + s.incorrect := by
  induction hr with
  | init tables question_count time_limit_seconds speed_label questions =>
      simp [initTestState]
  | typeDigit c hr ih =>
      unfold testTypeDigit
      split_ifs <;> simpa using ih
  | backspace hr ih =>
      unfold testBackspace
      split_ifs <;> simpa using ih
  | submit msgIdx pid pname now hr ih =>
      rename_i s
      unfold testSubmit
      by_cases hq : s.questions.length ≤ s.current_index
      · simpa [hq] using ih
      · simp only [hq, if_false, ite_false]
        by_cases he : s.input_value = ""
        · simpa [he] using ih
        · simp only [he, if_false, ite_false]
          cases hp : pyParseInt s.input_value with
          | none => simpa using ih
          | some g =>
              by_cases hg : g = ((s.questions.getD s.current_index ⟨0, 0⟩).answer : ℤ) <;>
                · simp only [hg, decide_eq_true_eq, ite_true, ite_false, if_true, if_false]
                  split <;>
                    simp [testFinish_history, testFinish_correct, testFinish_incorrect,
                      apply_ite TestState.history, apply_ite TestState.correct,
                      apply_ite TestState.incorrect, ih] <;>
                    omega
  | tick delta_time pid pname now hr ih =>
      rename_i s
      unfold testUpdate
      by_cases hf : s.finished
      · simpa [hf] using ih
      · simp only [hf, if_false, ite_false]
        split_ifs <;>
          simp [testFinish_history, testFinish_correct, testFinish_incorrect, ih]

/-- **C5.** Every `TestResult` built at test-session termination (from any
reachable session state) satisfies `answered = correct + incorrect`; its
accuracy is `correct/answered` for `answered ≠ 0` and `0.0` otherwise,
hence lies in `[0, 1]`; and `remaining_seconds` is
`max(time_limit_seconds - elapsed_seconds, 0)`. -/
theorem C5_result_invariants (s : TestState) (hr : TestReach s)
    (pid pname : String) (now : DateTime) :
    (finishResult s pid pname now).answered =
      (finishResult s pid pname now).correct + (finishResult s pid pname now).incorrect ∧
    (finishResult s pid pname now).accuracy =
      (if (finishResult s pid pname now).answered ≠ 0 then
        ((finishResult s pid pname now).correct : ℚ) /
          ((finishResult s pid pname now).answered : ℚ)
       else 0) ∧
    0 ≤ (finishResult s pid pname now).accuracy ∧
    (finishResult s pid pname now).accuracy ≤ 1 ∧
    (finishResult s pid pname now).remaining_seconds =
      max (((finishResult s pid pname now).time_limit_seconds : ℚ) -
        (finishResult s pid pname now).elapsed_seconds) 0 := by
  have hinv := test_history_invariant s hr
  have hans : (finishResult s pid pname now).answered = (s.history.length : ℤ) := rfl
  have hcor : (finishResult s pid pname now).correct = (s.correct : ℤ) := rfl
  have hinc : (finishResult s pid pname now).incorrect = (s.incorrect : ℤ) := rfl
  refine ⟨?_, rfl, ?_, ?_, rfl⟩
  · rw [hans, hcor, hinc, hinv]
    push_cast
    ring
  · unfold TestResult.accuracy
    split_ifs with hz
    · rw [hans] at hz ⊢
      rw [hcor]
      have hlen : 0 < s.history.length := by
        by_contra hc
        exact hz (by simp [Nat.eq_zero_of_not_pos hc])
      positivity
    · exact le_refl 0
  · unfold TestResult.accuracy
    split_ifs with hz
    · rw [hans] at hz ⊢
      rw [hcor]
      have hlen : 0 < s.history.length := by
        by_contra hc
        exact hz (by simp [Nat.eq_zero_of_not_pos hc])
      rw [div_le_one (by exact_mod_cast hlen)]
      have : s.correct ≤ s.history.length := by omega
      exact_mod_cast this
    · exact zero_le_one

/-- Witness for C5 at a concrete reachable state: the fresh session after
one correct submission. -/
theorem C5_result_invariants_witness :
    (finishResult c1Final "p" "n" ⟨0⟩).answered =
      (finishResult c1Final "p" "n" ⟨0⟩).correct + (finishResult c1Final "p" "n" ⟨0⟩).incorrect ∧
    (finishResult c1Final "p" "n" ⟨0⟩).accuracy =
      (if (finishResult c1Final "p" "n" ⟨0⟩).answered ≠ 0 then
        ((finishResult c1Final "p" "n" ⟨0⟩).correct : ℚ) /
          ((finishResult c1Final "p" "n" ⟨0⟩).answered : ℚ)
       else 0) ∧
    0 ≤ (finishResult c1Final "p" "n" ⟨0⟩).accuracy ∧
    (finishResult c1Final "p" "n" ⟨0⟩).accuracy ≤ 1 ∧
    (finishResult c1Final "p" "n" ⟨0⟩).remaining_seconds =
      max (((finishResult c1Final "p" "n" ⟨0⟩).time_limit_seconds : ℚ) -
        (finishResult c1Final "p" "n" ⟨0⟩).elapsed_seconds) 0 := by
  have hreach : TestReach c1Final := by
    unfold c1Final
    exact TestReach.submit 0 "p" "n" ⟨5⟩
      (TestReach.typeDigit '2'
        (TestReach.typeDigit '1'
          (TestReach.tick 1 "p" "n" ⟨0⟩
            (TestReach.init [3] 1 60 "Slak" [⟨3, 4⟩]))))
  exact C5_result_invariants c1Final hreach "p" "n" ⟨0⟩

/-! ### C7: tricky-table aggregation -/

/-- Lookup in the `combined` accumulator. -/
def combLookup (m : List (ℤ × (ℚ × ℚ × ℚ))) (t : ℤ) : Option (ℚ × ℚ × ℚ) :=
  (m.find? fun p => p.1 = t).map fun p => p.2

/-- Lookup with the `setdefault` zero triple. -/
def combValue (m : List (ℤ × (ℚ × ℚ × ℚ))) (t : ℤ) : ℚ × ℚ × ℚ :=
  (combLookup m t).getD (0, 0, 0)

/-- Add one stat record into an `(incorrect, questions, total_time)` triple. -/
def addStat (v : ℚ × ℚ × ℚ) (st : TableStat) : ℚ × ℚ × ℚ :=
  (v.1 + st.incorrect, v.2.1 + st.questions, v.2.2 + st.total_time)

/-- Componentwise triple addition. -/
def addTriples (a b : ℚ × ℚ × ℚ) : ℚ × ℚ × ℚ :=
  (a.1 + b.1, a.2.1 + b.2.1, a.2.2 + b.2.2)

/-- Spec-side per-result sums at a fixed table: total `incorrect`,
`questions` and `total_time` of that table's entries. -/
def resultSums (stats : List (ℤ × TableStat)) (t : ℤ) : ℚ × ℚ × ℚ :=
  (((stats.filter fun p => p.1 = t).map fun p => p.2.incorrect).sum,
   ((stats.filter fun p => p.1 = t).map fun p => p.2.questions).sum,
   ((stats.filter fun p => p.1 = t).map fun p => p.2.total_time).sum)

/-- Spec-side cross-result sums at a fixed table. -/
def totalSums (results : List TestResult) (t : ℤ) : ℚ × ℚ × ℚ :=
  (results.foldl (fun acc r => addTriples acc (resultSums r.table_stats t)) (0, 0, 0))

theorem combUpdate_lookup (k : ℤ) (st : TableStat) (t : ℤ) :
    ∀ m, combLookup (combUpdate m k st) t =
      if t = k then some (addStat (combValue m k) st) else combLookup m t := by
  intro m
  induction m with
  | nil =>
      by_cases ht : t = k
      · subst ht
        simp [combUpdate, combLookup, combValue, addStat]
      · have ht2 : ¬ k = t := fun h => ht h.symm
        simp [combUpdate, combLookup, combValue, addStat, ht, ht2]
  | cons p rest ih =>
      obtain ⟨k₁, v⟩ := p
      by_cases hk : k₁ = k
      · subst hk
        by_cases ht : t = k₁
        · subst ht
          simp [combUpdate, combLookup, combValue, addStat, List.find?]
        · have ht2 : ¬ k₁ = t := fun h => ht h.symm
          simp [combUpdate, combLookup, combValue, addStat, ht, ht2, List.find?]
      · by_cases ht : t = k₁
        · subst ht
          have htk : ¬ t = k := fun h => hk (h ▸ rfl)
          simp [combUpdate, combLookup, hk, htk, List.find?]
        · have ht2 : ¬ k₁ = t := fun h => ht h.symm
          simp only [combUpdate, if_neg hk]
          have hL : combLookup ((k₁, v) :: combUpdate rest k st) t =
              combLookup (combUpdate rest k st) t := by
            simp [combLookup, List.find?, ht2]
          have hR1 : combValue ((k₁, v) :: rest) k = combValue rest k := by
            simp [combValue, combLookup, List.find?, hk]
          have hR2 : combLookup ((k₁, v) :: rest) t = combLookup rest t := by
            simp [combLookup, List.find?, ht2]
          rw [hL, ih, hR1, hR2]

theorem foldl_stats_value (stats : List (ℤ × TableStat)) :
    ∀ (acc : List (ℤ × (ℚ × ℚ × ℚ))) (t : ℤ),
      combValue (stats.foldl (fun a p => combUpdate a p.1 p.2) acc) t =
        addTriples (combValue acc t) (resultSums stats t) := by
  induction stats with
  | nil =>
      intro acc t
      simp [resultSums, addTriples]
  | cons p rest ih =>
      intro acc t
      rw [List.foldl_cons, ih]
      by_cases ht : t = p.1
      · have hv : combValue (combUpdate acc p.1 p.2) t =
            addStat (combValue acc t) p.2 := by
          unfold combValue
          rw [combUpdate_lookup, if_pos ht, ht]
          rfl
        rw [hv]
        have hfilter : (((p :: rest).filter fun q => q.1 = t)) =
            p :: (rest.filter fun q => q.1 = t) := by
          rw [List.filter_cons, if_pos (by simp [ht])]
        simp only [resultSums, hfilter, List.map_cons, List.sum_cons, addTriples, addStat,
          Prod.mk.injEq]
        refine ⟨by ring, by ring, by ring⟩
      · have hv : combValue (combUpdate acc p.1 p.2) t = combValue acc t := by
          unfold combValue
          rw [combUpdate_lookup, if_neg ht]
        rw [hv]
        have hfilter : (((p :: rest).filter fun q => q.1 = t)) =
            rest.filter fun q => q.1 = t := by
          have hne : ¬ p.1 = t := fun h => ht h.symm
          rw [List.filter_cons, if_neg (by simp [hne])]
        simp only [resultSums, hfilter]

theorem aggCombined_value (results : List TestResult) (t : ℤ) :
    combValue (aggCombined results) t = totalSums results t := by
  unfold aggCombined totalSums
  suffices h : ∀ (acc : List (ℤ × (ℚ × ℚ × ℚ))) (init : ℚ × ℚ × ℚ),
      combValue acc t = init →
      combValue
        (results.foldl (fun acc res =>
          res.table_stats.foldl (fun a p => combUpdate a p.1 p.2) acc) acc) t =
        results.foldl (fun acc r => addTriples acc (resultSums r.table_stats t)) init by
    exact h [] (0, 0, 0) (by simp [combValue, combLookup])
  induction results with
  | nil => intro acc init h; simpa using h
  | cons r rest ih =>
      intro acc init h
      rw [List.foldl_cons, List.foldl_cons]
      exact ih _ _ (by rw [foldl_stats_value, h])

/-- Keys of the accumulator. -/
theorem combUpdate_keys (k : ℤ) (st : TableStat) :
    ∀ m, (combUpdate m k st).map Prod.fst =
      if k ∈ m.map Prod.fst then m.map Prod.fst else m.map Prod.fst ++ [k] := by
  intro m
  induction m with
  | nil => simp [combUpdate]
  | cons p rest ih =>
      obtain ⟨k₁, v⟩ := p
      by_cases hk : k₁ = k
      · subst hk
        simp [combUpdate]
      · have : ¬ k = k₁ := fun h => hk h.symm
        by_cases hmem : k ∈ rest.map Prod.fst <;>
          simp [combUpdate, hk, this, hmem, ih]

theorem combUpdate_nodup (k : ℤ) (st : TableStat) (m : List (ℤ × (ℚ × ℚ × ℚ)))
    (h : (m.map Prod.fst).Nodup) : ((combUpdate m k st).map Prod.fst).Nodup := by
  rw [combUpdate_keys]
  by_cases hmem : k ∈ m.map Prod.fst
  · simpa [hmem] using h
  · simp only [hmem, if_false, ite_false]
    simp [List.nodup_append, h, hmem]

theorem aggCombined_nodup (results : List TestResult) :
    ((aggCombined results).map Prod.fst).Nodup := by
  unfold aggCombined
  suffices h : ∀ (acc : List (ℤ × (ℚ × ℚ × ℚ))), (acc.map Prod.fst).Nodup →
      ((results.foldl (fun acc res =>
        res.table_stats.foldl (fun a p => combUpdate a p.1 p.2) acc) acc).map Prod.fst).Nodup by
    exact h [] (by simp)
  induction results with
  | nil => intro acc hacc; simpa using hacc
  | cons r rest ih =>
      intro acc hacc
      rw [List.foldl_cons]
      refine ih _ ?_
      clear ih
      induction r.table_stats generalizing acc with
      | nil => simpa using hacc
      | cons p ps ihp =>
          rw [List.foldl_cons]
          exact ihp _ (combUpdate_nodup p.1 p.2 acc hacc)

theorem mem_combLookup {m : List (ℤ × (ℚ × ℚ × ℚ))} {t : ℤ} {c : ℚ × ℚ × ℚ}
    (hn : (m.map Prod.fst).Nodup) (h : (t, c) ∈ m) : combLookup m t = some c := by
  induction m with
  | nil => simp at h
  | cons p rest ih =>
      obtain ⟨k₁, v⟩ := p
      rw [List.map_cons, List.nodup_cons] at hn
      rcases List.mem_cons.mp h with heq | hmem
      · injection heq with h1 h2
        subst h1
        subst h2
        simp [combLookup, List.find?]
      · have hk : ¬ k₁ = t := by
          intro hkt
          subst hkt
          exact hn.1 (List.mem_map.mpr ⟨(k₁, c), hmem, rfl⟩)
        have hrec := ih hn.2 hmem
        simpa [combLookup, List.find?, hk] using hrec

theorem pairDescLe_trans (a b c : ℚ × ℚ) (h1 : pairDescLe a b = true)
    (h2 : pairDescLe b c = true) : pairDescLe a c = true := by
  simp only [pairDescLe, decide_eq_true_eq] at h1 h2 ⊢
  rcases h1 with h1 | ⟨h1e, h1le⟩ <;> rcases h2 with h2 | ⟨h2e, h2le⟩
  · exact Or.inl (h2.trans h1)
  · exact Or.inl (h2e ▸ h1)
  · exact Or.inl (h1e ▸ h2)
  · exact Or.inr ⟨h2e.trans h1e, h2le.trans h1le⟩

theorem pairDescLe_total (a b : ℚ × ℚ) :
    (pairDescLe a b || pairDescLe b a) = true := by
  simp only [pairDescLe, Bool.or_eq_true, decide_eq_true_eq]
  rcases lt_trichotomy a.1 b.1 with h | h | h
  · exact Or.inr (Or.inl h)
  · rcases le_total b.2 a.2 with h2 | h2
    · exact Or.inl (Or.inr ⟨h.symm, h2⟩)
    · exact Or.inr (Or.inr ⟨h, h2⟩)
  · exact Or.inl (Or.inl h)

/-- First stored result of the concrete example: table 7 with 1 incorrect
over 2 attempts and 4.0 s total time. -/
def c7ResultA : TestResult :=
  { profile_id := "p", profile_name := "n", tables := [7], question_count := 5,
    answered := 2, correct := 1, incorrect := 1, time_limit_seconds := 60,
    elapsed_seconds := 30, timestamp := ⟨0⟩, table_stats := [(7, ⟨2, 1, 1, 4⟩)] }

/-- Second stored result: table 7 with 2 incorrect over 3 attempts and
6.0 s total time. -/
def c7ResultB : TestResult :=
  { profile_id := "p", profile_name := "n", tables := [7], question_count := 5,
    answered := 3, correct := 1, incorrect := 2, time_limit_seconds := 60,
    elapsed_seconds := 30, timestamp := ⟨1⟩, table_stats := [(7, ⟨3, 1, 2, 6⟩)] }

/-- **C7.** Tricky-table aggregation returns at most four entries, sorted
descending by the `(incorrect, avg_time)` pair; each returned entry carries
the per-table sums of `incorrect` across all of the profile's results and
`avg_time = total_time/attempts` (0 when there are no attempts); the
returned entries are the *top* of the aggregation — together with the
dropped tail they are a permutation of the whole aggregated summary, and
every dropped entry ranks at or below every returned entry in the same
descending `(incorrect, avg_time)` order; and the two-result instance of
the claim (table 7: incorrect 1 and 2, times 4.0 and 6.0 over 2 and 3
attempts) aggregates to `incorrect = 3`, `avg_time = 2.0`. -/
theorem C7_tricky_aggregation (results : List TestResult) :
    (aggregateTrickyTables results).length ≤ 4 ∧
    List.Pairwise
      (fun a b => b.2.1 < a.2.1 ∨ (b.2.1 = a.2.1 ∧ b.2.2 ≤ a.2.2))
      (aggregateTrickyTables results) ∧
    (∀ e ∈ aggregateTrickyTables results,
      e.2.1 = (totalSums results e.1).1 ∧
      e.2.2 = (if (totalSums results e.1).2.1 ≠ 0 then
        (totalSums results e.1).2.2 / (totalSums results e.1).2.1 else 0)) ∧
    (aggregateTrickyTables results ++ (trickySorted results).drop 4).Perm
      (trickySummary results) ∧
    (∀ a ∈ aggregateTrickyTables results, ∀ b ∈ (trickySorted results).drop 4,
      b.2.1 < a.2.1 ∨ (b.2.1 = a.2.1 ∧ b.2.2 ≤ a.2.2)) ∧
    aggregateTrickyTables [c7ResultA, c7ResultB] = [(7, 3, 2)] := by
  have hsorted := @List.sorted_mergeSort (ℤ × ℚ × ℚ)
    (fun a b => pairDescLe (a.2.1, a.2.2) (b.2.1, b.2.2))
    (fun a b c => pairDescLe_trans _ _ _)
    (fun a b => pairDescLe_total _ _)
    (trickySummary results)
  refine ⟨?_, ?_, ?_, ?_, ?_, ?_⟩
  · unfold aggregateTrickyTables
    exact List.length_take_le 4 _
  · have htake := List.Pairwise.sublist (List.take_sublist 4 _) hsorted
    refine htake.imp ?_
    intro a b h
    simpa [pairDescLe, decide_eq_true_eq] using h
  · intro e he
    unfold aggregateTrickyTables trickySorted trickySummary at he
    have he2 : e ∈ ((aggCombined results).map fun p =>
        (p.1, p.2.1, if p.2.2.1 ≠ 0 then p.2.2.2 / p.2.2.1 else 0)).mergeSort
        (fun a b => pairDescLe (a.2.1, a.2.2) (b.2.1, b.2.2)) :=
      (List.take_sublist 4 _).mem he
    have he3 := (List.mergeSort_perm _ _).mem_iff.mp he2
    obtain ⟨⟨t, c⟩, hmem, rfl⟩ := List.mem_map.mp he3
    have hlk := mem_combLookup (aggCombined_nodup results) hmem
    have hval : combValue (aggCombined results) t = c := by
      unfold combValue
      rw [hlk]
      rfl
    rw [aggCombined_value] at hval
    rw [← hval]
    exact ⟨rfl, rfl⟩
  · unfold aggregateTrickyTables
    rw [List.take_append_drop]
    exact List.mergeSort_perm _ _
  · intro a ha b hb
    have hsorted2 : List.Pairwise
        (fun x y => (pairDescLe (x.2.1, x.2.2) (y.2.1, y.2.2)) = true)
        ((trickySorted results).take 4 ++ (trickySorted results).drop 4) := by
      rw [List.take_append_drop]
      exact hsorted
    obtain ⟨-, -, hdom⟩ := List.pairwise_append.mp hsorted2
    have hda := hdom a ha b hb
    simpa [pairDescLe, decide_eq_true_eq] using hda
  · unfold aggregateTrickyTables trickySorted trickySummary aggCombined
    norm_num [combUpdate, c7ResultA, c7ResultB, List.mergeSort_singleton]

/-- A stored result whose `table_stats` holds a single table `t` with one
attempt, `inc` incorrect and zero response time. -/
def c7Single (t : ℤ) (inc : ℚ) (ts : ℤ) : TestResult :=
  { profile_id := "p", profile_name := "n", tables := [], question_count := 1,
    answered := 1, correct := 0, incorrect := 1, time_limit_seconds := 60,
    elapsed_seconds := 1, timestamp := ⟨ts⟩,
    table_stats := [(t, ⟨1, 0, inc, 0⟩)] }

/-- Five stored results covering tables 1..5 with strictly decreasing
incorrect counts 5..1, so the aggregation must drop exactly table 5. -/
def c7Five : List TestResult :=
  [c7Single 1 5 0, c7Single 2 4 1, c7Single 3 3 2, c7Single 4 2 3, c7Single 5 1 4]

theorem c7Five_sorted_eval :
    trickySorted c7Five =
      [(1, 5, 0), (2, 4, 0), (3, 3, 0), (4, 2, 0), (5, 1, 0)] := by
  have hsum : trickySummary c7Five =
      [(1, 5, 0), (2, 4, 0), (3, 3, 0), (4, 2, 0), (5, 1, 0)] := by
    unfold trickySummary aggCombined
    norm_num [combUpdate, c7Single, c7Five]
  unfold trickySorted
  rw [hsum]
  apply List.mergeSort_of_sorted
  norm_num [List.pairwise_cons, pairDescLe]

/-- Witness for C7: on the five-table data the aggregation keeps tables
1..4 and drops table 5, and the theorem's dominance clause — instantiated
at the kept entry `(1, 5, 0)` and the dropped entry `(5, 1, 0)` — yields
the concrete ranking fact; the per-entry sums clause is instantiated at
the table-7 entry of the two-result instance. -/
theorem C7_tricky_aggregation_witness :
    (aggregateTrickyTables c7Five).length ≤ 4 ∧
    ((1 : ℤ), (5 : ℚ), (0 : ℚ)) ∈ aggregateTrickyTables c7Five ∧
    ((5 : ℤ), (1 : ℚ), (0 : ℚ)) ∈ (trickySorted c7Five).drop 4 ∧
    ((1 : ℚ) < (5 : ℚ) ∨ ((1 : ℚ) = (5 : ℚ) ∧ (0 : ℚ) ≤ (0 : ℚ))) ∧
    ((7 : ℤ), (3 : ℚ), (2 : ℚ)) ∈ aggregateTrickyTables [c7ResultA, c7ResultB] ∧
    (3 : ℚ) = (totalSums [c7ResultA, c7ResultB] (7 : ℤ)).1 := by
  have h := C7_tricky_aggregation c7Five
  have h2 := C7_tricky_aggregation [c7ResultA, c7ResultB]
  have houtput : aggregateTrickyTables c7Five =
      [(1, 5, 0), (2, 4, 0), (3, 3, 0), (4, 2, 0)] := by
    unfold aggregateTrickyTables
    rw [c7Five_sorted_eval]
    rfl
  have hdrop : (trickySorted c7Five).drop 4 = [((5 : ℤ), (1 : ℚ), (0 : ℚ))] := by
    rw [c7Five_sorted_eval]
    rfl
  have hmem1 : ((1 : ℤ), (5 : ℚ), (0 : ℚ)) ∈ aggregateTrickyTables c7Five := by
    rw [houtput]
    simp
  have hmem2 : ((5 : ℤ), (1 : ℚ), (0 : ℚ)) ∈ (trickySorted c7Five).drop 4 := by
    rw [hdrop]
    simp
  have hmem7 : ((7 : ℤ), (3 : ℚ), (2 : ℚ)) ∈ aggregateTrickyTables [c7ResultA, c7ResultB] := by
    rw [h2.2.2.2.2.2]
    simp
  exact ⟨h.1, hmem1, hmem2, h.2.2.2.2.1 _ hmem1 _ hmem2, hmem7,
    (h2.2.2.1 _ hmem7).1⟩

/-! ### C8: leaderboard membership and ordering -/

theorem summaryDescLe_trans (a b c : ProfileSummary)
    (h1 : summaryDescLe a b = true) (h2 : summaryDescLe b c = true) :
    summaryDescLe a c = true := by
  simp only [summaryDescLe, decide_eq_true_eq] at h1 h2 ⊢
  rcases h1 with h1 | ⟨h1e, h1le⟩ <;> rcases h2 with h2 | ⟨h2e, h2le⟩
  · exact Or.inl (h2.trans h1)
  · exact Or.inl (h2e ▸ h1)
  · exact Or.inl (h1e ▸ h2)
  · exact Or.inr ⟨h2e.trans h1e, h2le.trans h1le⟩

theorem summaryDescLe_total (a b : ProfileSummary) :
    (summaryDescLe a b || summaryDescLe b a) = true := by
  simp only [summaryDescLe, Bool.or_eq_true, decide_eq_true_eq]
  rcases lt_trichotomy a.average_accuracy b.average_accuracy with h | h | h
  · exact Or.inr (Or.inl h)
  · rcases le_total b.tests a.tests with h2 | h2
    · exact Or.inl (Or.inr ⟨h.symm, h2⟩)
    · exact Or.inr (Or.inr ⟨h, h2⟩)
  · exact Or.inl (Or.inl h)

theorem filterMap_summarise_ids (data : List (PlayerProfile × List TestResult)) :
    ((data.filterMap fun pr => summariseProfile pr.1 pr.2).map fun s => s.profile_id) =
      ((data.filter fun pr => pr.2 ≠ []).map fun pr => pr.1.identifier) := by
  induction data with
  | nil => rfl
  | cons pr rest ih =>
      by_cases h : pr.2 = []
      · have hh : summariseProfile pr.1 pr.2 = none := by
          unfold summariseProfile
          rw [if_pos h]
        rw [List.filterMap_cons, List.filter_cons, hh]
        simp [h, ih]
      · have hh : ∃ s, summariseProfile pr.1 pr.2 = some s ∧
            s.profile_id = pr.1.identifier := by
          unfold summariseProfile
          rw [if_neg h]
          exact ⟨_, rfl, rfl⟩
        obtain ⟨s, hs, hid⟩ := hh
        rw [List.filterMap_cons, List.filter_cons, hs]
        simp [hid, h, ih]

/-- A stored result whose only claim-relevant content is its accuracy
(`correct/answered`) and timestamp. -/
def c8Result (correct answered t : ℤ) : TestResult :=
  { profile_id := "x", profile_name := "x", tables := [2], question_count := 5,
    answered := answered, correct := correct, incorrect := answered - correct,
    time_limit_seconds := 60, elapsed_seconds := 30, timestamp := ⟨t⟩,
    table_stats := [] }

def c8ProfileA : PlayerProfile := ⟨"A", "Ada", "a.png", 0⟩

def c8ProfileB : PlayerProfile := ⟨"B", "Bo", "b.png", 0⟩

def c8SummaryA : ProfileSummary := ⟨"A", "Ada", 3, 4/5, 4/5, ⟨2⟩⟩

def c8SummaryB : ProfileSummary := ⟨"B", "Bo", 1, 9/10, 9/10, ⟨0⟩⟩

/-- The two-profile leaderboard input of the claim's concrete instance. -/
def c8Data : List (PlayerProfile × List TestResult) :=
  [(c8ProfileA, [c8Result 4 5 0, c8Result 4 5 1, c8Result 4 5 2]),
   (c8ProfileB, [c8Result 9 10 0])]

theorem c8_summariseA :
    summariseProfile c8ProfileA [c8Result 4 5 0, c8Result 4 5 1, c8Result 4 5 2] =
      some c8SummaryA := by
  unfold summariseProfile
  rw [if_neg (by simp)]
  norm_num [TestResult.accuracy, qListMax, dtListMax, dtMax, c8Result,
    c8ProfileA, c8SummaryA]

theorem c8_summariseB :
    summariseProfile c8ProfileB [c8Result 9 10 0] = some c8SummaryB := by
  unfold summariseProfile
  rw [if_neg (by simp)]
  norm_num [TestResult.accuracy, qListMax, dtListMax, dtMax, c8Result,
    c8ProfileB, c8SummaryB]

/-- **C8.** The leaderboard rows are exactly the profiles with at least one
stored result (as a permutation of their ids, one row per such profile,
each row the profile's summary), sorted descending by
`(average_accuracy, tests)`; and in the claim's concrete instance —
profile A with accuracy 0.80 over 3 tests, profile B with accuracy 0.90
over 1 test — B ranks above A. -/
theorem C8_leaderboard (data : List (PlayerProfile × List TestResult)) :
    ((buildLeaderboard data).map fun s => s.profile_id).Perm
      ((data.filter fun pr => pr.2 ≠ []).map fun pr => pr.1.identifier) ∧
    List.Pairwise
      (fun a b => b.average_accuracy < a.average_accuracy ∨
        (b.average_accuracy = a.average_accuracy ∧ b.tests ≤ a.tests))
      (buildLeaderboard data) ∧
    (∀ s ∈ buildLeaderboard data, ∃ pr ∈ data, pr.2 ≠ [] ∧
      summariseProfile pr.1 pr.2 = some s) ∧
    buildLeaderboard c8Data = [c8SummaryB, c8SummaryA] := by
  refine ⟨?_, ?_, ?_, ?_⟩
  · unfold buildLeaderboard
    have h1 := (List.mergeSort_perm
      (data.filterMap fun pr => summariseProfile pr.1 pr.2) summaryDescLe).map
      (fun s => s.profile_id)
    rw [filterMap_summarise_ids data] at h1
    exact h1
  · unfold buildLeaderboard
    have hsorted := @List.sorted_mergeSort ProfileSummary summaryDescLe
      summaryDescLe_trans summaryDescLe_total
      (data.filterMap fun pr => summariseProfile pr.1 pr.2)
    refine hsorted.imp ?_
    intro a b h
    simpa [summaryDescLe, decide_eq_true_eq] using h
  · intro s hs
    unfold buildLeaderboard at hs
    have hs2 := (List.mergeSort_perm _ _).mem_iff.mp hs
    obtain ⟨pr, hpr, hsum⟩ := List.mem_filterMap.mp hs2
    have hne : pr.2 ≠ [] := by
      intro he
      rw [summariseProfile, if_pos he] at hsum
      exact Option.noConfusion hsum
    exact ⟨pr, hpr, hne, hsum⟩
  · unfold buildLeaderboard c8Data
    have hfm : ([(c8ProfileA, [c8Result 4 5 0, c8Result 4 5 1, c8Result 4 5 2]),
        (c8ProfileB, [c8Result 9 10 0])].filterMap
          fun pr => summariseProfile pr.1 pr.2) = [c8SummaryA, c8SummaryB] := by
      simp [List.filterMap, c8_summariseA, c8_summariseB]
    rw [hfm]
    obtain ⟨l₁, l₂, hms, hsplit, hfirst⟩ :=
      List.mergeSort_cons summaryDescLe_trans summaryDescLe_total
        c8SummaryA [c8SummaryB]
    rw [List.mergeSort_singleton] at hsplit
    have hAB : summaryDescLe c8SummaryA c8SummaryB = false := by
      norm_num [summaryDescLe, c8SummaryA, c8SummaryB]
    cases l₁ with
    | nil =>
        have hl₂ : l₂ = [c8SummaryB] := by simpa using hsplit.symm
        subst hl₂
        have hsorted := @List.sorted_mergeSort ProfileSummary summaryDescLe
          summaryDescLe_trans summaryDescLe_total [c8SummaryA, c8SummaryB]
        rw [hms] at hsorted
        simp only [List.nil_append, List.pairwise_cons] at hsorted
        have := hsorted.1 c8SummaryB (by simp)
        rw [hAB] at this
        exact absurd this (by simp)
    | cons x l₁' =>
        rw [List.cons_append] at hsplit
        injection hsplit with h1 h2
        obtain ⟨h3, h4⟩ := List.append_eq_nil.mp h2.symm
        subst h1
        subst h3
        subst h4
        rw [hms]
        rfl

/-- Witness for C8: on the concrete two-profile data, profile B's summary
tops the board and arises from B's single stored result. -/
theorem C8_leaderboard_witness :
    c8SummaryB ∈ buildLeaderboard c8Data ∧
    ∃ pr ∈ c8Data, pr.2 ≠ [] ∧ summariseProfile pr.1 pr.2 = some c8SummaryB := by
  have h := C8_leaderboard c8Data
  have hmem : c8SummaryB ∈ buildLeaderboard c8Data := by
    rw [h.2.2.2]
    simp
  exact ⟨hmem, h.2.2.1 c8SummaryB hmem⟩

end MultGame
